import Mathlib

/-
Verification of the statistics-rendering core of `cprofilev.py`.

The program is embedded shallowly: each Python function of the `Stats`
class and of `CProfileV.route_handler` is translated to a Lean function
over `String` / `List Char`.  Python primitives used by the source
(`str.splitlines`, `str.split`, list slicing and item assignment,
`re.search` on the two fixed patterns, `dict` update, bottle's template
substitution with its default HTML escaping) are modelled by explicit
structurally-recursive Lean functions so that every definition evaluates
inside the kernel.  Fallible operations (Python list item assignment,
which raises `IndexError` out of range) return `Option`.
-/

namespace Cprofilev

/-- Python whitespace for `str.split()` (ASCII subset actually occurring
in profiler reports). -/
def pyIsSpace (c : Char) : Bool :=
  c = ' ' || c = '\t' || c = '\n' || c = '\r' || c = '\x0b' || c = '\x0c'

/-- `str.splitlines()` for LF-terminated text: no entry for a trailing
newline, empty string gives no lines. -/
def splitLinesCh : List Char → List (List Char)
  | [] => []
  | '\n' :: rest => [] :: splitLinesCh rest
  | c :: rest =>
    match splitLinesCh rest with
    | [] => [[c]]
    | l :: ls => (c :: l) :: ls

/-- `str.splitlines(True)` for LF-terminated text: line terminators kept. -/
def splitLinesKeepCh : List Char → List (List Char)
  | [] => []
  | '\n' :: rest => ['\n'] :: splitLinesKeepCh rest
  | c :: rest =>
    match splitLinesKeepCh rest with
    | [] => [[c]]
    | l :: ls => (c :: l) :: ls

/-- `str.split()` with no argument: split on runs of whitespace,
discarding empty tokens. -/
def splitTokensCh : List Char → List (List Char)
  | [] => []
  | c :: rest =>
    if pyIsSpace c then splitTokensCh rest
    else
      match rest with
      | [] => [[c]]
      | d :: _ =>
        if pyIsSpace d then [c] :: splitTokensCh rest
        else
          match splitTokensCh rest with
          | [] => [[c]]
          | t :: ts => (c :: t) :: ts

def pySplitlines (s : String) : List String :=
  (splitLinesCh s.data).map String.mk

def pySplitlinesKeep (s : String) : List String :=
  (splitLinesKeepCh s.data).map String.mk

def pySplitTokens (s : String) : List String :=
  (splitTokensCh s.data).map String.mk

/-- Python slice `s[:-1]`: drop the final character. -/
def pySliceDropLast (s : String) : String :=
  String.mk s.data.dropLast

/-- Concatenation of a list of strings (Python `''.join` / repeated `+=`). -/
def joinAll : List String → String
  | [] => ""
  | x :: xs => x ++ joinAll xs

/-- Python `' '.join`. -/
def joinSp : List String → String
  | [] => ""
  | [x] => x
  | x :: y :: t => x ++ " " ++ joinSp (y :: t)

/-- Python `'&'.join` (used to state the link shape). -/
def joinAmp : List String → String
  | [] => ""
  | [x] => x
  | x :: y :: t => x ++ "&" ++ joinAmp (y :: t)

/-- Python `'\n'.join`. -/
def joinNl : List String → String
  | [] => ""
  | [x] => x
  | x :: y :: t => x ++ "\n" ++ joinNl (y :: t)

/-- Naive substring test: is `needle` a contiguous substring of `hay`?
Models `re.search` for a fixed literal pattern. -/
def infixOfCh (needle : List Char) : List Char → Bool
  | [] => needle.isEmpty
  | c :: t => needle.isPrefixOf (c :: t) || infixOfCh needle t

def strContains (s pat : String) : Bool :=
  infixOfCh pat.data s.data

/-- The characters replaced by bottle's default `html_escape` filter. -/
def htmlSpecial (c : Char) : Bool :=
  c = '&' || c = '<' || c = '>' || c = '\"' || c = '\x27'

def htmlEscapeChar (c : Char) : String :=
  if c = '&' then "&amp;"
  else if c = '<' then "&lt;"
  else if c = '>' then "&gt;"
  else if c = '\"' then "&quot;"
  else if c = '\x27' then "&#039;"
  else String.mk [c]

/-- bottle's `html_escape`, applied by `{\x7b ... \x7d}` substitutions. -/
def htmlEscape (s : String) : String :=
  joinAll (s.data.map htmlEscapeChar)

/-! ### The `Stats` wrapper class -/

/-- `Stats.IGNORE_FUNC_NAMES`. -/
def IGNORE_FUNC_NAMES : List String := ["function", ""]

/-- `FUNC_NAME_KEY`. -/
def FUNC_NAME_KEY : String := "func_name"

/-- `re.search(HEADER_LINE_REGEX, line)` for
`HEADER_LINE_REGEX = r'ncalls|tottime|cumtime'`: the regex is an
alternation of three literals, so it matches a line containing any one
of the three substrings. -/
def headerLineMatch (line : String) : Bool :=
  strContains line "ncalls" || strContains line "tottime" || strContains line "cumtime"

/-- `$` in `re.search` matches at end of string or just before one final
newline; this strips that newline from the text the pattern applies to. -/
def chopNl (l : List Char) : List Char :=
  if l.getLast? = some '\n' then l.dropLast else l

/-- Split `body` around its last `(`: `some (pre, name)` when
`body = pre ++ '(' :: name` with no further `(` in `name`. -/
def lastParenSplit : List Char → Option (List Char × List Char)
  | [] => none
  | c :: rest =>
    match lastParenSplit rest with
    | some (p, n) => some (c :: p, n)
    | none => if c = '(' then some ([], rest) else none

/-- `re.search(STATS_LINE_REGEX, line)` for
`STATS_LINE_REGEX = r'(.*)\((.*)\)$'` on a single report line (no
interior newline): with both groups greedy, group 1 is everything before
the last `(` and group 2 is what stands between that `(` and the final
`)`; there is no match unless the line (ignoring one trailing newline)
ends in `)` and contains an earlier `(`. -/
def matchStatsLine (line : String) : Option (String × String) :=
  let content := chopNl line.data
  match content.getLast? with
  | some ')' =>
    match lastParenSplit content.dropLast with
    | some (p, n) => some (String.mk p, String.mk n)
    | none => none
  | _ => none

/-- Python `dict` update `d[key] = val`: replace in place, else append. -/
def dictSet : List (String × String) → String → String → List (String × String)
  | [], key, val => [(key, val)]
  | (k, v) :: rest, key, val =>
    if k = key then (key, val) :: rest else (k, v) :: dictSet rest key val

/-- Python `dict.get`. -/
def dictGet : List (String × String) → String → Option String
  | [], _ => none
  | (k, v) :: rest, key => if k = key then some v else dictGet rest key

/-- `Stats.get_updated_href`: copy the request's query parameters, set
`key` to `val`, render `'?'` followed by `k=v&` pairs, and chop the
final `&` with `href[:-1]`. -/
def get_updated_href (q : List (String × String)) (key val : String) : String :=
  let query := dictSet q key val
  pySliceDropLast ("?" ++ joinAll (query.map (fun p => (p.1 ++ "=" ++ p.2) ++ "&")))

/-- `Stats.process_line`, with the ambient `bottle.request.query` passed
explicitly as `q`.  The two `bottle.template` calls substitute
`{\x7b prefix \x7d}`, `{\x7b url \x7d}` and `{\x7b func_name \x7d}` through the
default HTML-escape filter and `{\x7b !url_link \x7d}` raw. -/
def process_line (q : List (String × String)) (line : String) : String :=
  match matchStatsLine line with
  | some (pre, name) =>
    if name ∈ IGNORE_FUNC_NAMES then line
    else
      htmlEscape pre ++ "(" ++
        ("<a href=\x27" ++ htmlEscape (get_updated_href q FUNC_NAME_KEY name) ++
          "\x27>" ++ htmlEscape name ++ "</a>") ++ ")" ++ "\n"
  | none => line

/-- `Stats.read_stream`: `getvalue()` then `seek(0)`/`truncate()` — the
accumulated text is returned and the buffer is left empty. -/
def read_stream (stream : String) : String × String :=
  (stream, "")

/-- `Stats.read` applied to captured text: split keeping line ends, map
`process_line`, join. -/
def processText (q : List (String × String)) (s : String) : String :=
  joinAll ((pySplitlinesKeep s).map (process_line q))

/-- The loop body of `Stats.get_stats_header`: accumulate `line + '\n'`
until a line matches the header-line regex. -/
def get_stats_header_lines : List String → String
  | [] => ""
  | l :: ls => if headerLineMatch l then "" else (l ++ "\n") ++ get_stats_header_lines ls

/-- `Stats.get_stats_header`. -/
def get_stats_header (s : String) : String :=
  get_stats_header_lines (pySplitlines s)

/-- `cols[:5] + [' '.join(cols[5:])]`. -/
def rowOfCols (cols : List String) : List String :=
  cols.take 5 ++ [joinSp (cols.drop 5)]

/-- One iteration's yield decision of `Stats.iter_stats_table_row`:
`None` for a line with no tokens. -/
def rowOfLine (line : String) : Option (List String) :=
  let cols := pySplitTokens line
  if cols.isEmpty then none else some (rowOfCols cols)

/-- The loop of `Stats.iter_stats_table_row`: `in_table` is switched on
by the first line matching the header regex (that same line is already
subject to the yield test) and never reset. -/
def iterRowsAux : Bool → List String → List (List String)
  | _, [] => []
  | inTable, line :: rest =>
    let t := inTable || headerLineMatch line
    let cols := pySplitTokens line
    if t && !cols.isEmpty then rowOfCols cols :: iterRowsAux t rest
    else iterRowsAux t rest

/-- `Stats.iter_stats_table_row` (the generator, as the list it yields). -/
def iter_stats_table_row (s : String) : List (List String) :=
  iterRowsAux false (pySplitlines s)

/-- One `<tr>` row of `Stats.format_stats_table`: `'<tr>'` followed by
one `<el>...</el>` cell per column.  The source's `row += '</tr>'`
extends the local `row` list after the cells were emitted and never
reaches `row_dom`, so no closing `</tr>` is produced. -/
def mkCellRow (el : String) (row : List String) : String :=
  "<tr>" ++ joinAll (row.map (fun col => "<" ++ el ++ ">" ++ col ++ "</" ++ el ++ ">"))

/-- The `table_dom` list built by the loop of `Stats.format_stats_table`:
`col_el` is `'th'` for the first row and `'td'` afterwards. -/
def table_doms (s : String) : List String :=
  match iter_stats_table_row s with
  | [] => []
  | r :: rs => mkCellRow "th" r :: rs.map (mkCellRow "td")

/-- Python list item assignment `l[n] = f l[n]` for a nonnegative index:
`none` models the `IndexError` raised out of range. -/
def pySetAtNat (l : List String) (n : Nat) (f : String → String) : Option (List String) :=
  match l, n with
  | [], _ => none
  | x :: xs, 0 => some (f x :: xs)
  | x :: xs, n + 1 => (pySetAtNat xs n f).map (x :: ·)

/-- Python list item assignment `l[i] = f l[i]` with Python's negative
indexing; `none` models `IndexError`. -/
def pySetIdx (l : List String) (i : Int) (f : String → String) : Option (List String) :=
  let j : Int := if i < 0 then (l.length : Int) + i else i
  if j < 0 then none else pySetAtNat l j.toNat f

/-- `Stats.format_stats_table`: build the row markups, then wrap
`table_dom[0]` in `<thead>`, open `<tbody>` at `table_dom[1]` and close
it after `table_dom[-1]`; `none` models the `IndexError` those three
item assignments raise on a table of fewer than two rows. -/
def format_stats_table (s : String) : Option String :=
  (pySetIdx (table_doms s) 0 (fun x => "<thead>" ++ x ++ "</thead>")).bind fun l1 =>
  (pySetIdx l1 1 (fun x => "<tbody>" ++ x)).bind fun l2 =>
  (pySetIdx l2 (-1) (fun x => x ++ "</tbody>")).map fun l3 =>
  joinNl l3

/-! ### `STATS_TEMPLATE` and `CProfileV.route_handler`

`STATS_TEMPLATE` contains two `% if` code lines and no `% end`.  Under
bottle's SimpleTemplate, every `% ...` line is a code line (not
emitted), `% if x:` opens a block that only a `% end` closes, and an
unclosed block silently extends to the end of the template.  The
template therefore renders as: fixed text, then — only when `callers`
is non-empty — the "Called By:" block followed by — only when
additionally `callees` is non-empty — the "Called:" block and the
closing `</div></body></html>` text. -/

def TPL_HEAD1 : String :=
  "<html>\n    <head>\n        <title>"

def TPL_HEAD2 : String :=
  " | cProfile Results</title>\n        <link rel=\"stylesheet\" type=\"text/css\" href=\"https://cdnjs.cloudflare.com/ajax/libs/twitter-bootstrap/3.3.6/css/bootstrap.min.css\">\n        <link rel=\"stylesheet\" type=\"text/css\" href=\"https://cdnjs.cloudflare.com/ajax/libs/datatables/1.10.10/css/dataTables.bootstrap.min.css\">\n    </head>\n    <body>\n        <div class=\"container\">\n            <pre>"

def TPL_MID : String :=
  "</pre>\n            <table class=\"table table-striped\">"

def TPL_SCRIPTS : String :=
  "</table>\n            <script src=\"https://cdnjs.cloudflare.com/ajax/libs/jquery/2.1.4/jquery.min.js\"></script>\n            <script src=\"https://cdnjs.cloudflare.com/ajax/libs/twitter-bootstrap/3.3.6/js/bootstrap.min.js\"></script>\n            <script src=\"https://cdnjs.cloudflare.com/ajax/libs/datatables/1.10.10/js/jquery.dataTables.min.js\"></script>\n            <script src=\"https://cdnjs.cloudflare.com/ajax/libs/datatables/1.10.10/js/dataTables.bootstrap.min.js\"></script>\n            <script>\n                $(document).ready(function()\x7b\n                    $(\x27table\x27).DataTable(\x7b\n                        \"order\": [[3, \"desc\"]]\n                    \x7d);\n                \x7d);\n            </script>\n\n"

def TPL_CALLERS1 : String :=
  "                <h2>Called By:</h2>\n                <pre>"

def TPL_CALLERS2 : String :=
  "</pre>\n\n"

def TPL_CALLEES1 : String :=
  "                <h2>Called:</h2>\n                <pre>"

def TPL_CALLEES2 : String :=
  "</pre>\n        </div> <!-- .container -->\n    </body>\n</html>"

/-- `bottle.template(STATS_TEMPLATE, **data)`: `{\x7b title \x7d}` is
substituted through the HTML-escape filter, the four `{\x7b ! ... \x7d}`
substitutions are raw, and the two unclosed `% if` blocks nest. -/
def renderStatsTemplate (title header table callers callees : String) : String :=
  TPL_HEAD1 ++ htmlEscape title ++ TPL_HEAD2 ++ header ++ TPL_MID ++ table ++ TPL_SCRIPTS ++
    (if callers = "" then ""
     else TPL_CALLERS1 ++ callers ++ TPL_CALLERS2 ++
       (if callees = "" then ""
        else TPL_CALLEES1 ++ callees ++ TPL_CALLEES2))

/-- `CProfileV.route_handler`, with the profiler backend's three report
texts passed as `callersRaw`/`calleesRaw`/`aggRaw` (the text
`print_callers`/`print_callees`/`print_stats` write into the fresh
sink for the request's `func_name` restriction).  `none` models the
`IndexError` that `format_stats_table` raises. -/
def route_handler_page (q : List (String × String)) (title : String)
    (callersRaw calleesRaw aggRaw : String) : Option String :=
  let fn := (dictGet q FUNC_NAME_KEY).getD ""
  let callers := if fn = "" then "" else processText q callersRaw
  let callees := if fn = "" then "" else processText q calleesRaw
  let stats_str := processText q aggRaw
  (format_stats_table stats_str).map fun table =>
    renderStatsTemplate title (get_stats_header stats_str) table callers callees

/-- `print_*` writing into the capture sink: text is appended. -/
def pyWrite (stream out : String) : String := stream ++ out

/-- One `Stats.read` call: drain the sink through `read_stream` and
post-process the drained text. -/
def readOp (q : List (String × String)) (stream : String) : String × String :=
  let r := read_stream stream
  (processText q r.1, r.2)

/-- The sink discipline of `CProfileV.route_handler` on a request with a
focus function: a fresh empty sink, then three write-and-drain rounds
(callers, callees, aggregate).  Returns each round's drained output
paired with the sink contents left behind by that round. -/
def route_handler_sink_trace (q : List (String × String)) (c e a : String) :
    List (String × String) :=
  let st0 : String := ""
  let st1 := pyWrite st0 c
  let r1 := readOp q st1
  let st3 := pyWrite r1.2 e
  let r2 := readOp q st3
  let st5 := pyWrite r2.2 a
  let r3 := readOp q st5
  [r1, r2, r3]

/-! ### Definitions following the spec's words, for comparison -/

/-- Spec-following variant of `get_stats_header`, named for the claim
that the boundary is "the first line containing all of the substrings
`ncalls`, `tottime`, `cumtime`" (and, per the spec, the whole report
when no such line exists).  To be compared with `get_stats_header`,
whose regex is an alternation. -/
def get_stats_header_specAllThree (s : String) : String :=
  joinAll (((pySplitlines s).takeWhile
    (fun l => !(strContains l "ncalls" && strContains l "tottime" && strContains l "cumtime"))).map
    (· ++ "\n"))

/-- Spec-following variant of `iter_stats_table_row`, named for the
claim that rows come only from the non-blank lines strictly after the
first header-signature line, the header line itself being skipped.  To
be compared with `iter_stats_table_row`, which also yields the header
line. -/
def iter_rows_specAfterHeader : List String → List (List String)
  | [] => []
  | l :: ls =>
    if headerLineMatch l then ls.filterMap rowOfLine
    else iter_rows_specAfterHeader ls

def iter_stats_table_row_specAfterHeader (s : String) : List (List String) :=
  iter_rows_specAfterHeader (pySplitlines s)

/-- Apply `f` to the last element of a list (the effect of a successful
Python `l[-1] = f l[-1]`). -/
def applyLast (f : String → String) : List String → List String
  | [] => []
  | [x] => [f x]
  | x :: y :: t => x :: applyLast f (y :: t)

/-! ### Helper lemmas -/

theorem get_stats_header_lines_eq_takeWhile (ls : List String) :
    get_stats_header_lines ls =
      joinAll ((ls.takeWhile (fun l => !headerLineMatch l)).map (· ++ "\n")) := by
  induction ls with
  | nil => rfl
  | cons l ls ih =>
    by_cases h : headerLineMatch l
    · simp [get_stats_header_lines, List.takeWhile_cons, h, joinAll]
    · simp [get_stats_header_lines, List.takeWhile_cons, h, joinAll, ih]

theorem iterRowsAux_true (ls : List String) :
    iterRowsAux true ls = ls.filterMap rowOfLine := by
  induction ls with
  | nil => rfl
  | cons l ls ih =>
    simp only [iterRowsAux, Bool.true_or, List.filterMap_cons, rowOfLine]
    by_cases h : (pySplitTokens l).isEmpty
    · simp [h, ih]
    · simp [h, ih]

theorem iterRowsAux_skip (pre : List String) (rest : List String)
    (h : ∀ l ∈ pre, headerLineMatch l = false) :
    iterRowsAux false (pre ++ rest) = iterRowsAux false rest := by
  induction pre with
  | nil => rfl
  | cons l ls ih =>
    have hl : headerLineMatch l = false := h l (by simp)
    simp only [List.cons_append, iterRowsAux, hl, Bool.or_false, Bool.false_and,
      Bool.false_eq_true, if_false]
    exact ih (fun x hx => h x (by simp [hx]))

theorem iterRowsAux_header_cons (hl : String) (post : List String)
    (h : headerLineMatch hl = true) :
    iterRowsAux false (hl :: post) = (hl :: post).filterMap rowOfLine := by
  simp only [iterRowsAux, h, Bool.or_true, List.filterMap_cons, rowOfLine]
  by_cases hc : (pySplitTokens hl).isEmpty
  · simp [hc, iterRowsAux_true]
  · simp [hc, iterRowsAux_true]

theorem get_stats_header_lines_append (pre rest : List String)
    (h : ∀ l ∈ pre, headerLineMatch l = false) :
    get_stats_header_lines (pre ++ rest) =
      joinAll (pre.map (· ++ "\n")) ++ get_stats_header_lines rest := by
  induction pre with
  | nil => simp [joinAll, String.empty_append]
  | cons l ls ih =>
    have hl : headerLineMatch l = false := h l (by simp)
    have hc : (l :: ls) ++ rest = l :: (ls ++ rest) := rfl
    rw [hc]
    simp only [get_stats_header_lines, hl, Bool.false_eq_true, if_false,
      List.map_cons, joinAll]
    rw [ih (fun x hx => h x (by simp [hx])), ← String.append_assoc]

theorem pySetAtNat_last (f : String → String) :
    ∀ l : List String, l ≠ [] → pySetAtNat l (l.length - 1) f = some (applyLast f l) := by
  intro l
  induction l with
  | nil => intro h; exact absurd rfl h
  | cons x xs ih =>
    intro _
    cases xs with
    | nil => rfl
    | cons y t =>
      have : (x :: y :: t).length - 1 = (y :: t).length - 1 + 1 := by
        simp [List.length_cons]
      rw [this]
      simp only [pySetAtNat, applyLast]
      rw [ih (by simp)]
      rfl

theorem pySetIdx_neg_one (l : List String) (f : String → String) (h : l ≠ []) :
    pySetIdx l (-1) f = some (applyLast f l) := by
  have hlen : 1 ≤ l.length := by
    cases l with
    | nil => exact absurd rfl h
    | cons x xs => simp
  simp only [pySetIdx]
  have h1 : ((-1 : Int) < 0) = True := by simp
  have hj : (if (-1 : Int) < 0 then (l.length : Int) + (-1) else (-1 : Int)) =
      ((l.length : Int) - 1) := by simp; ring
  rw [hj]
  have hge : ¬ ((l.length : Int) - 1 < 0) := by omega
  rw [if_neg hge]
  have ht : ((l.length : Int) - 1).toNat = l.length - 1 := by omega
  rw [ht]
  exact pySetAtNat_last f l h

theorem joinAmp_infix (l : List String) (x : String) (hx : x ∈ l) :
    ∃ a b : String, joinAmp l = a ++ (x ++ b) := by
  induction l with
  | nil => cases hx
  | cons y ys ih =>
    cases hx with
    | head =>
      cases ys with
      | nil => exact ⟨"", "", by simp [joinAmp, String.append_empty, String.empty_append]⟩
      | cons z t =>
        refine ⟨"", "&" ++ joinAmp (z :: t), ?_⟩
        simp [joinAmp, String.empty_append, String.append_assoc]
    | tail _ hmem =>
      obtain ⟨a, b, hab⟩ := ih hmem
      cases ys with
      | nil => cases hmem
      | cons z t =>
        refine ⟨y ++ "&" ++ a, b, ?_⟩
        simp only [joinAmp] at hab ⊢
        rw [hab]
        simp [String.append_assoc]

theorem pySliceDropLast_amp (l : List String) :
    ∀ pre : String, l ≠ [] →
      pySliceDropLast (pre ++ joinAll (l.map (fun x => x ++ "&"))) = pre ++ joinAmp l := by
  induction l with
  | nil => intro pre h; exact absurd rfl h
  | cons x xs ih =>
    intro pre _
    cases xs with
    | nil =>
      simp only [List.map_cons, List.map_nil, joinAll, joinAmp, String.append_empty]
      apply String.ext
      simp only [pySliceDropLast]
      have : (pre ++ (x ++ "&")).data = (pre.data ++ x.data) ++ ['&'] := by
        simp [String.data_append, List.append_assoc]
      rw [this, List.dropLast_concat, String.data_append]
    | cons y t =>
      have step : pre ++ joinAll ((x :: y :: t).map (fun s => s ++ "&")) =
          (pre ++ (x ++ "&")) ++ joinAll ((y :: t).map (fun s => s ++ "&")) := by
        simp only [List.map_cons, joinAll, String.append_assoc]
      rw [step, ih (pre ++ (x ++ "&")) (by simp)]
      simp only [joinAmp, String.append_assoc]

theorem dictSet_ne_nil (q : List (String × String)) (k v : String) :
    dictSet q k v ≠ [] := by
  cases q with
  | nil => simp [dictSet]
  | cons p rest =>
    simp only [dictSet]
    by_cases h : p.1 = k <;> simp [h]

theorem get_updated_href_eq (q : List (String × String)) (k v : String) :
    get_updated_href q k v =
      "?" ++ joinAmp ((dictSet q k v).map (fun p => p.1 ++ "=" ++ p.2)) := by
  simp only [get_updated_href]
  have hmap : (dictSet q k v).map (fun p => (p.1 ++ "=" ++ p.2) ++ "&") =
      ((dictSet q k v).map (fun p => p.1 ++ "=" ++ p.2)).map (fun x => x ++ "&") := by
    simp [List.map_map, Function.comp]
  rw [hmap]
  exact pySliceDropLast_amp _ "?"
    (by simp [dictSet_ne_nil q k v])

theorem mem_dictSet_self (q : List (String × String)) (k v : String) :
    (k, v) ∈ dictSet q k v := by
  induction q with
  | nil => simp [dictSet]
  | cons p rest ih =>
    simp only [dictSet]
    by_cases h : p.1 = k
    · simp [h]
    · simp [h, ih]

theorem mem_dictSet_of_mem (q : List (String × String)) (k v a b : String)
    (hab : (a, b) ∈ q) (hne : a ≠ k) : (a, b) ∈ dictSet q k v := by
  induction q with
  | nil => cases hab
  | cons p rest ih =>
    simp only [dictSet]
    by_cases h : p.1 = k
    · rcases List.mem_cons.1 hab with heq | hmem
      · exact absurd ((congrArg Prod.fst heq).trans h) hne
      · simp [h, hmem]
    · rcases List.mem_cons.1 hab with heq | hmem
      · simp only [h, if_false, List.mem_cons]
        left; exact heq
      · simp [h, ih hmem]

theorem keys_dictSet_subset (q : List (String × String)) (k v a : String)
    (ha : a ∈ (dictSet q k v).map Prod.fst) : a ∈ q.map Prod.fst ∨ a = k := by
  induction q with
  | nil => simp [dictSet] at ha; right; exact ha
  | cons p rest ih =>
    simp only [dictSet] at ha
    by_cases h : p.1 = k
    · simp only [h, if_true, List.map_cons, List.mem_cons] at ha
      rcases ha with h1 | h2
      · right; exact h1
      · left; simp [h2]
    · simp only [h, if_false, List.map_cons, List.mem_cons] at ha
      rcases ha with h1 | h2
      · left; simp [h1]
      · rcases ih h2 with h3 | h4
        · left; simp [h3]
        · right; exact h4

theorem nodup_keys_dictSet (q : List (String × String)) (k v : String)
    (h : (q.map Prod.fst).Nodup) : ((dictSet q k v).map Prod.fst).Nodup := by
  induction q with
  | nil => simp [dictSet]
  | cons p rest ih =>
    simp only [List.map_cons, List.nodup_cons] at h
    obtain ⟨hp, hrest⟩ := h
    simp only [dictSet]
    by_cases hk : p.1 = k
    · simp only [hk, if_true, List.map_cons, List.nodup_cons]
      exact ⟨hk ▸ hp, hrest⟩
    · simp only [hk, if_false, List.map_cons, List.nodup_cons]
      refine ⟨?_, ih hrest⟩
      intro hmem
      rcases keys_dictSet_subset rest k v p.1 hmem with h1 | h2
      · exact hp h1
      · exact hk h2

theorem joinAll_map_singleton (l : List Char) :
    joinAll (l.map (fun c => String.mk [c])) = String.mk l := by
  induction l with
  | nil => rfl
  | cons c t ih =>
    simp only [List.map_cons, joinAll, ih]
    apply String.ext
    rw [String.data_append]
    rfl

theorem htmlEscape_plain (s : String) (h : ∀ c ∈ s.data, htmlSpecial c = false) :
    htmlEscape s = s := by
  have : s.data.map htmlEscapeChar = s.data.map (fun c => String.mk [c]) := by
    apply List.map_congr_left
    intro c hc
    have hs := h c hc
    simp only [htmlSpecial, Bool.or_eq_false_iff, decide_eq_false_iff_not] at hs
    simp [htmlEscapeChar, hs.1.1.1.1, hs.1.1.1.2, hs.1.1.2, hs.1.2, hs.2]
  rw [htmlEscape, this, joinAll_map_singleton]

theorem mem_iterRowsAux (ls : List String) :
    ∀ (b : Bool) (row : List String), row ∈ iterRowsAux b ls →
      ∃ cols : List String, cols ≠ [] ∧ row = rowOfCols cols := by
  induction ls with
  | nil => intro b row h; cases h
  | cons l rest ih =>
    intro b row h
    simp only [iterRowsAux] at h
    by_cases hc : (b || headerLineMatch l) && !(pySplitTokens l).isEmpty
    · rw [if_pos hc] at h
      rcases List.mem_cons.1 h with heq | hmem
      · refine ⟨pySplitTokens l, ?_, heq⟩
        have h2 : (pySplitTokens l).isEmpty = false := by
          have hcc := hc
          rw [Bool.and_eq_true] at hcc
          simpa using hcc.2
        intro he
        rw [he] at h2
        simp at h2
      · exact ih _ row hmem
    · rw [if_neg hc] at h
      exact ih _ row h

theorem pySetIdx_zero (x : String) (xs : List String) (f : String → String) :
    pySetIdx (x :: xs) 0 f = some (f x :: xs) := rfl

theorem pySetIdx_one (x y : String) (xs : List String) (f : String → String) :
    pySetIdx (x :: y :: xs) 1 f = some (x :: f y :: xs) := rfl

/-! ### Claim theorems -/

/-- Claim C1 (code_bug evaluation): on a report whose parsed table has
zero rows (`""`) or one row (`"ncalls"`), `format_stats_table` reaches
the sectioning item assignments with a `table_dom` of fewer than two
elements and raises `IndexError` (modelled as `none`) — it renders no
placeholder. -/
theorem format_stats_table_short_table_error :
    format_stats_table "" = none ∧ format_stats_table "ncalls" = none := by
  constructor <;> rfl

/-- Claim C2 (counterexample): the header-line regex is the alternation
`ncalls|tottime|cumtime`, so a line containing only the single token
`ncalls` already terminates the header; the spec-following variant that
demands all three substrings keeps that line (and, there being no line
with all three, returns the whole report). -/
theorem get_stats_header_single_token_counterexample :
    get_stats_header "aa ncalls bb\ncc" = "" ∧
    get_stats_header_specAllThree "aa ncalls bb\ncc" = "aa ncalls bb\ncc\n" ∧
    get_stats_header "aa ncalls bb\ncc" ≠
      get_stats_header_specAllThree "aa ncalls bb\ncc" := by
  refine ⟨rfl, rfl, ?_⟩
  decide

/-- Claim C2 (amended): `get_stats_header` returns exactly the lines
preceding the first line that contains at least one of the substrings
`ncalls`, `tottime`, `cumtime`, each terminated by a line break; a line
containing any one of them terminates the header. -/
theorem get_stats_header_any_token_boundary (s : String) :
    get_stats_header s =
      joinAll (((pySplitlines s).takeWhile (fun l => !headerLineMatch l)).map (· ++ "\n")) :=
  get_stats_header_lines_eq_takeWhile (pySplitlines s)

/-- Claim C3 (counterexample): in the report `"x\nncalls"` the header
signature first matches at line 1 and no line follows it, so the claim
predicts zero data rows; `iter_stats_table_row` nevertheless yields the
header line itself as a row (the spec-following variant that skips the
header line yields none). -/
theorem iter_stats_table_row_yields_header_line :
    iter_stats_table_row "x\nncalls" = [["ncalls", ""]] ∧
    iter_stats_table_row_specAfterHeader "x\nncalls" = [] ∧
    iter_stats_table_row "x\nncalls" ≠ iter_stats_table_row_specAfterHeader "x\nncalls" := by
  refine ⟨rfl, rfl, ?_⟩
  decide

/-- Claim C5 (counterexample): a non-blank table-region line with fewer
than five tokens produces a row with fewer than six fields —
`cols[:5]` is shorter than five — so not every yielded row has exactly
six fields. -/
theorem iter_stats_table_row_short_row :
    iter_stats_table_row "ncalls\nx y" = [["ncalls", ""], ["x", "y", ""]] ∧
    (["x", "y", ""] : List String).length ≠ 6 := by
  refine ⟨rfl, ?_⟩
  decide

/-- Claim C3 (amended): when the header-line signature first matches at
line `k` (the report's lines split as `pre ++ hl :: post` with no match
in `pre` and a match at `hl`), `get_stats_header` returns exactly the
lines before `k`, each terminated by a line break, and
`iter_stats_table_row` yields one row per tokenful line at or after
line `k` — the header line itself included, as its first row. -/
theorem header_boundary_split (s : String) (pre : List String) (hl : String)
    (post : List String)
    (hsplit : pySplitlines s = pre ++ hl :: post)
    (hpre : ∀ l ∈ pre, headerLineMatch l = false)
    (hhl : headerLineMatch hl = true) :
    get_stats_header s = joinAll (pre.map (· ++ "\n")) ∧
    iter_stats_table_row s = (hl :: post).filterMap rowOfLine := by
  constructor
  · rw [get_stats_header, hsplit, get_stats_header_lines_append pre (hl :: post) hpre]
    simp [get_stats_header_lines, hhl, String.append_empty]
  · rw [iter_stats_table_row, hsplit, iterRowsAux_skip pre _ hpre,
      iterRowsAux_header_cons hl post hhl]

/-- Witness for `header_boundary_split` at a concrete report whose
header signature first matches at line 1. -/
theorem header_boundary_split_witness :
    get_stats_header "x\nncalls tottime cumtime\n1 2 3 4 5 f" =
      joinAll (["x"].map (· ++ "\n")) ∧
    iter_stats_table_row "x\nncalls tottime cumtime\n1 2 3 4 5 f" =
      (["ncalls tottime cumtime", "1 2 3 4 5 f"]).filterMap rowOfLine :=
  header_boundary_split "x\nncalls tottime cumtime\n1 2 3 4 5 f"
    ["x"] "ncalls tottime cumtime" ["1 2 3 4 5 f"]
    (by decide) (by decide) (by decide)

/-- Claim C5 (amended): every yielded row is `cols[:5]` plus the
remaining tokens rejoined with single spaces, for the non-empty token
list `cols` of its source line; when the line has at least five tokens
this gives exactly six fields, the first five being the first five
tokens unchanged and the sixth the rest rejoined; the claim's concrete
example line parses exactly as stated. -/
theorem stat_row_shape (s : String) (row : List String)
    (h : row ∈ iter_stats_table_row s) :
    (∃ cols : List String, cols ≠ [] ∧ row = rowOfCols cols ∧
      (5 ≤ cols.length → row.length = 6 ∧ row.take 5 = cols.take 5 ∧
        row.getLast? = some (joinSp (cols.drop 5)))) ∧
    rowOfCols (pySplitTokens
        "12345    0.020    0.000    0.045    0.000 module.py:10(compute)") =
      ["12345", "0.020", "0.000", "0.045", "0.000", "module.py:10(compute)"] := by
  constructor
  · obtain ⟨cols, hne, hrow⟩ := mem_iterRowsAux (pySplitlines s) false row h
    refine ⟨cols, hne, hrow, ?_⟩
    intro h5
    have hlen : (cols.take 5).length = 5 := by
      rw [List.length_take]
      omega
    refine ⟨?_, ?_, ?_⟩
    · rw [hrow, rowOfCols, List.length_append, hlen]
      rfl
    · rw [hrow, rowOfCols]
      exact List.take_left' hlen
    · rw [hrow, rowOfCols, List.getLast?_concat]
  · rfl

/-- Witness for `stat_row_shape`: the claim's example line, preceded by
a header line, is a member of the yielded rows. -/
theorem stat_row_shape_witness :
    (∃ cols : List String, cols ≠ [] ∧
      (["12345", "0.020", "0.000", "0.045", "0.000", "module.py:10(compute)"] :
        List String) = rowOfCols cols ∧
      (5 ≤ cols.length →
        (["12345", "0.020", "0.000", "0.045", "0.000", "module.py:10(compute)"] :
          List String).length = 6 ∧
        (["12345", "0.020", "0.000", "0.045", "0.000", "module.py:10(compute)"] :
          List String).take 5 = cols.take 5 ∧
        (["12345", "0.020", "0.000", "0.045", "0.000", "module.py:10(compute)"] :
          List String).getLast? = some (joinSp (cols.drop 5)))) ∧
    rowOfCols (pySplitTokens
        "12345    0.020    0.000    0.045    0.000 module.py:10(compute)") =
      ["12345", "0.020", "0.000", "0.045", "0.000", "module.py:10(compute)"] :=
  stat_row_shape
    "ncalls tottime cumtime\n12345    0.020    0.000    0.045    0.000 module.py:10(compute)"
    ["12345", "0.020", "0.000", "0.045", "0.000", "module.py:10(compute)"]
    (by decide)

/-- Claim C6: on a line whose trailing end-of-line group matches
`(.*)\((.*)\)$` with a group-2 value that is neither `function` nor
empty, `process_line` replaces the trailing `(name)` group by an anchor
whose label slot holds `name` (HTML-escaped; literally `name` when the
name has no HTML-special characters) and whose target is the current
query string with `func_name` set to `name`, so the generated href
contains `func_name=name`. -/
theorem process_line_links_function_names (q : List (String × String))
    (line pre name : String)
    (hm : matchStatsLine line = some (pre, name))
    (h1 : name ≠ "function") (h2 : name ≠ "") :
    process_line q line =
      htmlEscape pre ++ "(" ++
        ("<a href=\x27" ++ htmlEscape (get_updated_href q FUNC_NAME_KEY name) ++
          "\x27>" ++ htmlEscape name ++ "</a>") ++ ")" ++ "\n" ∧
    (∃ a b : String,
      get_updated_href q FUNC_NAME_KEY name = a ++ (("func_name=" ++ name) ++ b)) ∧
    ((∀ c ∈ name.data, htmlSpecial c = false) → htmlEscape name = name) := by
  have hnot : name ∉ IGNORE_FUNC_NAMES := by
    simp [IGNORE_FUNC_NAMES, h1, h2]
  refine ⟨?_, ?_, htmlEscape_plain name⟩
  · simp [process_line, hm, hnot]
  · rw [get_updated_href_eq]
    have hx : (FUNC_NAME_KEY ++ "=" ++ name) ∈
        (dictSet q FUNC_NAME_KEY name).map (fun p => p.1 ++ "=" ++ p.2) :=
      List.mem_map_of_mem _ (mem_dictSet_self q FUNC_NAME_KEY name)
    obtain ⟨a, b, hab⟩ := joinAmp_infix _ _ hx
    refine ⟨"?" ++ a, b, ?_⟩
    have hkey : FUNC_NAME_KEY ++ "=" ++ name = "func_name=" ++ name := by
      have : FUNC_NAME_KEY ++ "=" = "func_name=" := by decide
      rw [this]
    rw [hab, hkey]
    simp [String.append_assoc]

/-- Witness for `process_line_links_function_names` at a concrete
report line and query. -/
theorem process_line_links_function_names_witness :
    process_line [("sort", "cumtime")] "abc module.py:10(compute)\n" =
      htmlEscape "abc module.py:10" ++ "(" ++
        ("<a href=\x27" ++
          htmlEscape (get_updated_href [("sort", "cumtime")] FUNC_NAME_KEY "compute") ++
          "\x27>" ++ htmlEscape "compute" ++ "</a>") ++ ")" ++ "\n" ∧
    (∃ a b : String,
      get_updated_href [("sort", "cumtime")] FUNC_NAME_KEY "compute" =
        a ++ (("func_name=" ++ "compute") ++ b)) ∧
    ((∀ c ∈ ("compute" : String).data, htmlSpecial c = false) →
      htmlEscape "compute" = "compute") :=
  process_line_links_function_names [("sort", "cumtime")]
    "abc module.py:10(compute)\n" "abc module.py:10" "compute"
    (by decide) (by decide) (by decide)

/-- Claim C7: the link built by `get_updated_href` is `?` followed by
`k=v` pairs joined by `&` for the query dictionary updated with
`func_name`: keys stay unduplicated, every other key keeps its value,
and `func_name` carries the clicked name. -/
theorem get_updated_href_preserves_query (q : List (String × String)) (v : String)
    (hnodup : (q.map Prod.fst).Nodup) :
    get_updated_href q FUNC_NAME_KEY v =
      "?" ++ joinAmp ((dictSet q FUNC_NAME_KEY v).map (fun p => p.1 ++ "=" ++ p.2)) ∧
    ((dictSet q FUNC_NAME_KEY v).map Prod.fst).Nodup ∧
    (FUNC_NAME_KEY, v) ∈ dictSet q FUNC_NAME_KEY v ∧
    (∀ k w : String, (k, w) ∈ q → k ≠ FUNC_NAME_KEY → (k, w) ∈ dictSet q FUNC_NAME_KEY v) :=
  ⟨get_updated_href_eq q FUNC_NAME_KEY v,
   nodup_keys_dictSet q FUNC_NAME_KEY v hnodup,
   mem_dictSet_self q FUNC_NAME_KEY v,
   fun k w hkw hne => mem_dictSet_of_mem q FUNC_NAME_KEY v k w hkw hne⟩

/-- Witness for `get_updated_href_preserves_query` on the query
`{a: 1, b: 2}` and a click on `foo`. -/
theorem get_updated_href_preserves_query_witness :
    (([("a", "1"), ("b", "2")] : List (String × String)).map Prod.fst).Nodup ∧
    get_updated_href [("a", "1"), ("b", "2")] FUNC_NAME_KEY "foo" =
      "?" ++ joinAmp ((dictSet [("a", "1"), ("b", "2")] FUNC_NAME_KEY "foo").map
        (fun p => p.1 ++ "=" ++ p.2)) :=
  ⟨by decide,
   (get_updated_href_preserves_query [("a", "1"), ("b", "2")] "foo" (by decide)).1⟩

/-- Claim C8: `process_line` is the identity on every line whose match
yields a sentinel group-2 value (`function` or the empty string) and on
every line the pattern does not match at all (for a non-match,
`(matchStatsLine line).map Prod.snd` defaults to `""`, which is itself
a sentinel, so the single hypothesis covers both cases). -/
theorem process_line_identity_on_sentinels (q : List (String × String)) (line : String)
    (h : ((matchStatsLine line).map Prod.snd).getD "" ∈ IGNORE_FUNC_NAMES) :
    process_line q line = line := by
  cases hm : matchStatsLine line with
  | none => simp [process_line, hm]
  | some pn =>
    rw [hm] at h
    have hp : pn.2 ∈ IGNORE_FUNC_NAMES := by simpa using h
    obtain ⟨pre, name⟩ := pn
    simp only at hp
    simp [process_line, hm, hp]

/-- Witness for `process_line_identity_on_sentinels`: a pseudo-frame
line with name `function` and a header line with no trailing
parenthesised group both pass through unchanged. -/
theorem process_line_identity_on_sentinels_witness :
    ((matchStatsLine "  12 0.1 module.py:1(function)\n").map Prod.snd).getD "" ∈
      IGNORE_FUNC_NAMES ∧
    process_line [("sort", "time")] "  12 0.1 module.py:1(function)\n" =
      "  12 0.1 module.py:1(function)\n" ∧
    process_line [("sort", "time")] "   Ordered by: cumulative time\n" =
      "   Ordered by: cumulative time\n" :=
  ⟨by decide,
   process_line_identity_on_sentinels [("sort", "time")] _ (by decide),
   process_line_identity_on_sentinels [("sort", "time")] _ (by decide)⟩

/-- Claim C10: on a table of two or more parsed rows,
`format_stats_table` emits one `<tr>`-opened, never-`</tr>`-closed
markup string per row (`mkCellRow`, which appends only the cell
elements after `<tr>`), with `<th>` cells for the first row and `<td>`
cells for all later rows; the first row is wrapped in `<thead>`, the
body section opens at the second row and closes after the last, and the
rows are joined with line breaks. -/
theorem format_stats_table_row_markup (s : String) (r0 r1 : List String)
    (rs : List (List String))
    (h : iter_stats_table_row s = r0 :: r1 :: rs) :
    format_stats_table s =
      some (joinNl (("<thead>" ++ mkCellRow "th" r0 ++ "</thead>") ::
        applyLast (fun x => x ++ "</tbody>")
          (("<tbody>" ++ mkCellRow "td" r1) :: rs.map (mkCellRow "td")))) := by
  have hdoms : table_doms s =
      mkCellRow "th" r0 :: mkCellRow "td" r1 :: rs.map (mkCellRow "td") := by
    simp [table_doms, h]
  simp only [format_stats_table, hdoms, pySetIdx_zero, pySetIdx_one, Option.some_bind]
  rw [pySetIdx_neg_one _ _ (by simp)]
  simp only [Option.map_some', applyLast]

/-- Witness for `format_stats_table_row_markup` on a three-row table. -/
theorem format_stats_table_row_markup_witness :
    format_stats_table "ncalls\n1 2\n3 4" =
      some (joinNl (("<thead>" ++ mkCellRow "th" ["ncalls", ""] ++ "</thead>") ::
        applyLast (fun x => x ++ "</tbody>")
          (("<tbody>" ++ mkCellRow "td" ["1", "2", ""]) ::
            [["3", "4", ""]].map (mkCellRow "td")))) :=
  format_stats_table_row_markup "ncalls\n1 2\n3 4"
    ["ncalls", ""] ["1", "2", ""] [["3", "4", ""]] (by decide)

set_option maxRecDepth 100000 in
/-- Claim C4 (code_bug evaluation): on a focused request whose callers
report is empty while its callees report is the non-empty `"x\n"`, the
assembled page contains no `Called:` section (the unclosed `% if
callers:` block of `STATS_TEMPLATE` swallows the `% if callees:` block,
so the callees section requires the callers report to be non-empty
too), although the claim requires the section to depend only on the
callees report. -/
theorem route_handler_nested_sections :
    (route_handler_page [("func_name", "foo")] "t" "" "x\n" "ncalls\n1 2 3 4 5 f").isSome =
      true ∧
    processText [("func_name", "foo")] "x\n" = "x\n" ∧
    ("x\n" : String) ≠ "" ∧
    strContains
      ((route_handler_page [("func_name", "foo")] "t" "" "x\n" "ncalls\n1 2 3 4 5 f").getD "")
      "<h2>Called:</h2>" = false ∧
    strContains
      ((route_handler_page [("func_name", "foo")] "t" "" "x\n" "ncalls\n1 2 3 4 5 f").getD "")
      "<h2>Called By:</h2>" = false := by
  refine ⟨rfl, rfl, by decide, ?_, ?_⟩ <;> rfl

/-- Claim C9: `read_stream` returns the accumulated text and leaves the
buffer empty, and in `route_handler`'s three write-and-drain rounds
each drained output is exactly the text its own report generation
wrote — the sink is empty after every round, so no residual text leaks
into a later report. -/
theorem read_stream_drains_sink :
    (∀ stream : String, read_stream stream = (stream, "")) ∧
    (∀ (q : List (String × String)) (c e a : String),
      route_handler_sink_trace q c e a =
        [(processText q c, ""), (processText q e, ""), (processText q a, "")]) := by
  constructor
  · intro stream; rfl
  · intro q c e a
    simp [route_handler_sink_trace, readOp, read_stream, pyWrite, String.empty_append]

end Cprofilev
